import Mathlib

set_option maxHeartbeats 1000000

/-!
Formal model of `metagpt/tools/search_engine_ddg.py`: the DuckDuckGo search
wrapper `DDGAPIWrapper` with result normalization, rate limiting, retrying and
caching.

Shallow embedding conventions:
* Python exceptions become an explicit `PyErr` value threaded through `Except`;
* the provider's lazily-produced result sequence (`self.ddgs.text(query)`)
  becomes a finite list of records followed by an optional failure raised when
  the consumer pulls past the last yielded record;
* `max_results : int` is embedded as `Int` (Python integers are unbounded and
  may be negative here);
* observable effects (records consumed, limiter tokens taken, provider
  invocations, cache mutations) are recorded explicitly in the outputs.
-/

/-- A Python exception raised below the `except Exception as e` boundary of
`run`: `keyError k` models the `KeyError` raised by the subscript `i[k]` on a
record missing field `k`; `providerError msg` models an exception raised by the
`duckduckgo_search` client itself. -/
inductive PyBaseErr : Type where
  | keyError : String → PyBaseErr
  | providerError : String → PyBaseErr
deriving DecidableEq, Repr

/-- Python's `str(e)` for the modelled base exceptions.
`str(KeyError("k"))` renders with quotes as `'k'`. -/
def PyBaseErr.str : PyBaseErr → String
  | PyBaseErr.keyError k => "\x27" ++ k ++ "\x27"
  | PyBaseErr.providerError m => m

/-- A Python exception as seen by callers of `run` and by the tenacity retry
predicate: either one of the base exceptions above (escaping unclassified) or
the module's own `DuckDuckGoSearchException(msg)` raised with `from cause`.
In this code a `DuckDuckGoSearchException` is only ever raised by the
classification block, whose cause is the caught base exception. -/
inductive PyErr : Type where
  | base : PyBaseErr → PyErr
  | ddgError : String → Option PyBaseErr → PyErr
deriving DecidableEq, Repr

/-- Python's `str(e)` for the exceptions seen by callers. -/
def PyErr.str : PyErr → String
  | PyErr.base e => e.str
  | PyErr.ddgError m _ => m

/-- A provider-native result record yielded by `ddgs.text(query)`: a Python
dict with string keys and values, modelled as an association list (first
binding wins, as in a dict there is one binding per key). -/
structure DDGRecord : Type where
  fields : List (String × String)
deriving DecidableEq, Repr

/-- Dictionary lookup that does not raise: `some` iff the field is present. -/
def DDGRecord.get (r : DDGRecord) (k : String) : Option String :=
  (r.fields.find? (fun p => p.1 == k)).map Prod.snd

/-- The Python subscript `i[k]`: raises `KeyError(k)` when the field is
absent. -/
def DDGRecord.item (r : DDGRecord) (k : String) : Except PyBaseErr String :=
  match r.get k with
  | some v => Except.ok v
  | none => Except.error (PyBaseErr.keyError k)

/-- The normalized three-field search result produced by `_search_from_ddgs`. -/
structure SearchResult : Type where
  link : String
  snippet : String
  title : String
deriving DecidableEq, Repr

/-- One element of the comprehension in `_search_from_ddgs`:
`{"link": i["href"], "snippet": i["body"], "title": i["title"]}`, with the
subscripts evaluated left to right, so the first missing field raises. -/
def normalizeRecord (i : DDGRecord) : Except PyBaseErr SearchResult := do
  let href ← i.item "href"
  let body ← i.item "body"
  let title ← i.item "title"
  Except.ok { link := href, snippet := body, title := title }

/-- The provider's lazily-produced result sequence for one `ddgs.text(query)`
call: it yields the records of `items` in order and then either is exhausted
(`err = none`) or raises `err` when the consumer pulls one more element.  The
`duckduckgo_search` client is an external collaborator; only this observable
behaviour of its result stream is modelled. -/
structure ProviderStream : Type where
  items : List DDGRecord
  err : Option PyBaseErr
deriving DecidableEq, Repr

namespace DDGAPIWrapper

/-- The comprehension
`[{...} for (_, i) in zip(range(max_results), self.ddgs.text(query))]`.
`zip` pulls from `range(max_results)` first, so nothing is pulled from the
stream once the counter is exhausted (in particular nothing at all when
`max_results ≤ 0`); each pulled record is normalized immediately, and a pull
that hits the stream's failure, or a record missing a required field, aborts
the whole comprehension with that error.  The second component counts the
records actually yielded by the stream. -/
def searchAux : Nat → List DDGRecord → Option PyBaseErr →
    Except PyBaseErr (List SearchResult) × Nat
  | 0, _, _ => (Except.ok [], 0)
  | _ + 1, [], none => (Except.ok [], 0)
  | _ + 1, [], some e => (Except.error e, 0)
  | k + 1, r :: rest, err =>
    match normalizeRecord r with
    | Except.error e => (Except.error e, 1)
    | Except.ok s =>
      match searchAux k rest err with
      | (Except.ok l, n) => (Except.ok (s :: l), n + 1)
      | (Except.error e, n) => (Except.error e, n + 1)

/-- `DDGAPIWrapper._search_from_ddgs(query, max_results)`, where `text` gives
the provider's stream for each query. -/
def searchFromDdgs (text : String → ProviderStream) (query : String)
    (max_results : Int) : Except PyBaseErr (List SearchResult) × Nat :=
  searchAux max_results.toNat (text query).items (text query).err

end DDGAPIWrapper

/-- `needle` occurs at the head of `hay`. -/
def headMatch : List Char → List Char → Bool
  | [], _ => true
  | _ :: _, [] => false
  | a :: as, b :: bs => a == b && headMatch as bs

/-- `needle` occurs somewhere in `hay`. -/
def subOf (needle : List Char) : List Char → Bool
  | [] => headMatch needle []
  | c :: t => headMatch needle (c :: t) || subOf needle t

/-- Python's substring test `needle in hay` (case-sensitive), as used by
`'Ratelimit' in str(e)`. -/
def containsSub (needle hay : String) : Bool := subOf needle.data hay.data

/-- The `except Exception as e` block of `DDGAPIWrapper.run`: every failure
of the provider call is re-raised as `DuckDuckGoSearchException`, with message
`"Rate limit exceeded"` when `str(e)` contains `"Ratelimit"` and
`"An error occurred during search"` otherwise (the original message is only
printed to the log), chained `from e` in both branches. -/
def classifyError (e : PyBaseErr) : PyErr :=
  if containsSub "Ratelimit" e.str then
    PyErr.ddgError "Rate limit exceeded" (some e)
  else
    PyErr.ddgError "An error occurred during search" (some e)

/-- Lower-case hexadecimal digit, as produced by `'\u{0:04x}'.format(i)`. -/
def hexDig (n : Nat) : Char :=
  if n < 10 then Char.ofNat (48 + n) else Char.ofNat (87 + n)

/-- Per-character escaping of Python `json.dumps(..., ensure_ascii=False)`:
`"` and `\` and the control characters below `0x20` are escaped (with the seven
short escapes of the standard encoder and `\u00xx` for the rest); every other
character — in particular all non-ASCII text — is emitted unchanged. -/
def escChar (c : Char) : List Char :=
  if c = '"' then ['\\', '"']
  else if c = '\\' then ['\\', '\\']
  else if c = Char.ofNat 8 then ['\\', 'b']
  else if c = Char.ofNat 9 then ['\\', 't']
  else if c = Char.ofNat 10 then ['\\', 'n']
  else if c = Char.ofNat 12 then ['\\', 'f']
  else if c = Char.ofNat 13 then ['\\', 'r']
  else if c.toNat < 32 then
    ['\\', 'u', '0', '0', hexDig (c.toNat / 16), hexDig (c.toNat % 16)]
  else [c]

/-- A JSON string literal for `s`: quote, escaped characters, quote. -/
def encString (s : String) : List Char :=
  '"' :: (s.data.map escChar).flatten ++ ['"']

/-- The `{` character (written numerically to keep it out of string/char
literal positions). -/
def lbrace : Char := Char.ofNat 123

/-- The `}` character. -/
def rbrace : Char := Char.ofNat 125

/-- A serialized object key followed by the default key separator `": "`. -/
def keyTok (k : String) : List Char := encString k ++ [':', ' ']

/-- The default item separator `", "` followed by a serialized key and `": "`. -/
def sepTok (k : String) : List Char := ',' :: ' ' :: keyTok k

/-- `json.dumps` of one result dict: keys in insertion order
`link`, `snippet`, `title`, default separators. -/
def encResult (r : SearchResult) : List Char :=
  (lbrace :: keyTok "link") ++ encString r.link
    ++ sepTok "snippet" ++ encString r.snippet
    ++ sepTok "title" ++ encString r.title ++ [rbrace]

/-- The serialized items after the first one, each preceded by `", "`. -/
def encTail : List SearchResult → List Char
  | [] => []
  | r :: rest => ',' :: ' ' :: (encResult r ++ encTail rest)

/-- The serialized items of a JSON array, separated by `", "`. -/
def encItems : List SearchResult → List Char
  | [] => []
  | r :: rest => encResult r ++ encTail rest

/-- `json.dumps(search_results, ensure_ascii=False)`. -/
def jsonDumps (l : List SearchResult) : String :=
  String.mk ('[' :: encItems l ++ [']'])

instance {ε α : Type} [DecidableEq ε] [DecidableEq α] : DecidableEq (Except ε α)
  | Except.ok x, Except.ok y =>
    if h : x = y then isTrue (by rw [h])
    else isFalse (fun hc => h (by cases hc; rfl))
  | Except.ok _, Except.error _ => isFalse (fun hc => Except.noConfusion hc)
  | Except.error _, Except.ok _ => isFalse (fun hc => Except.noConfusion hc)
  | Except.error x, Except.error y =>
    if h : x = y then isTrue (by rw [h])
    else isFalse (fun hc => h (by cases hc; rfl))

/-- The observable outcome of one (un-retried) execution of the body of
`DDGAPIWrapper.run`. -/
structure RunOutput : Type where
  result : Except PyErr (String ⊕ List SearchResult)
  recordsConsumed : Nat
  limiterTokens : Nat
  providerInvocations : Nat
deriving DecidableEq, Repr

namespace DDGAPIWrapper

/-- One (un-retried) execution of the body of `DDGAPIWrapper.run`: acquire the
shared rate limiter, run `_search_from_ddgs` in the executor, re-raise any
failure through `classifyError`, and on success return
`json.dumps(search_results, ensure_ascii=False)` when `as_string` is set and
the structured list otherwise.  Besides the result, the output records the
effects of the call: the records consumed from the provider's stream, the
limiter tokens taken and the provider invocations (one each per call). -/
def run (text : String → ProviderStream) (query : String) (max_results : Int)
    (as_string : Bool) : RunOutput :=
  let sr := searchFromDdgs text query max_results
  match sr.1 with
  | Except.error e =>
    { result := Except.error (classifyError e), recordsConsumed := sr.2,
      limiterTokens := 1, providerInvocations := 1 }
  | Except.ok l =>
    { result := Except.ok
        (if as_string then Sum.inl (jsonDumps l) else Sum.inr l),
      recordsConsumed := sr.2, limiterTokens := 1, providerInvocations := 1 }

end DDGAPIWrapper

/-- tenacity `wait_exponential(multiplier=1, min=4, max=10)`: after the
`attempt`-th failed attempt (1-based) the wait before the next attempt is
`max(max(0, min), min(multiplier * 2 ** attempt, max))` time units. -/
def waitExponential (attempt : Nat) : Nat :=
  max (max 0 4) (min (1 * 2 ^ attempt) 10)

/-- tenacity `retry_if_exception_type(DuckDuckGoSearchException)`: only the
module's own exception kind triggers a retry. -/
def isRetryableErr : PyErr → Bool
  | PyErr.ddgError _ _ => true
  | PyErr.base _ => false

/-- The outcome of a retried call: the final result delivered to the caller,
the number of attempts actually made, and the waits slept between attempts. -/
structure RetryOutcome (α : Type) : Type where
  result : Except PyErr α
  attempts : Nat
  waits : List Nat
deriving Repr

/-- One step of the tenacity loop: `f attempt` is the outcome of the
`attempt`-th call of the wrapped body (1-based), and `left` is the number of
further attempts `stop_after_attempt` still allows.  A success returns; a
failure of the retried exception type sleeps `waitExponential attempt` and
retries while attempts remain; any other failure — and the failure of the last
allowed attempt (`reraise=True`) — is re-raised unmodified. -/
def retryAux {α : Type} (f : Nat → Except PyErr α) : Nat → Nat → RetryOutcome α
  | attempt, 0 => { result := f attempt, attempts := 1, waits := [] }
  | attempt, left + 1 =>
    match f attempt with
    | Except.ok a => { result := Except.ok a, attempts := 1, waits := [] }
    | Except.error e =>
      if isRetryableErr e then
        let r := retryAux f (attempt + 1) left
        { result := r.result, attempts := r.attempts + 1,
          waits := waitExponential attempt :: r.waits }
      else { result := Except.error e, attempts := 1, waits := [] }

/-- The retry decorator on `DDGAPIWrapper.run`:
`stop_after_attempt(5)` makes at most 5 attempts in total. -/
def retryRun {α : Type} (f : Nat → Except PyErr α) : RetryOutcome α :=
  retryAux f 1 4

namespace DDGAPIWrapper

/-- The full `DDGAPIWrapper.run` as seen by callers: the retry decorator
applied to the body, where `text a` is the provider's behaviour on the `a`-th
attempt (1-based). -/
def runRetried (text : Nat → String → ProviderStream) (query : String)
    (max_results : Int) (as_string : Bool) :
    RetryOutcome (String ⊕ List SearchResult) :=
  retryRun (fun a => (run (text a) query max_results as_string).result)

end DDGAPIWrapper

/-- An entry of the aiocache in-memory cache: the stored payload and its expiry
instant (creation time plus the 300-second ttl).  The `JsonSerializer`
round-trips the stored payload to an equal value, so the entry is modelled as
the value itself. -/
structure CacheEntry : Type where
  value : String ⊕ List SearchResult
  expiry : Nat
deriving DecidableEq, Repr

/-- The in-process memory cache: an association from the call's key — the
`(query, max_results, as_string)` argument triple — to its entry.  The most
recent binding for a key comes first. -/
structure CacheState : Type where
  entries : List ((String × Int × Bool) × CacheEntry)
deriving DecidableEq, Repr

/-- aiocache lookup at time `now`: a stored entry answers only before its
expiry; an absent or expired entry is a miss. -/
def lookupCache (c : CacheState) (key : String × Int × Bool) (now : Nat) :
    Option (String ⊕ List SearchResult) :=
  match c.entries.find? (fun p => decide (p.1 = key)) with
  | some p => if now < p.2.expiry then some p.2.value else none
  | none => none

/-- The observable outcome of one `cached_run` call: the result, the cache
state after the call, and the effects consumed on the way (provider
invocations, limiter tokens, whether the retry policy ran at all). -/
structure CachedRunOutput : Type where
  result : Except PyErr (String ⊕ List SearchResult)
  cache : CacheState
  providerInvocations : Nat
  limiterTokens : Nat
  retryEntered : Bool
deriving Repr

namespace DDGAPIWrapper

/-- `DDGAPIWrapper.cached_run`:
`@cached(ttl=300, cache=Cache.MEMORY, serializer=JsonSerializer())` around the
retried `run`.  On a hit the stored value is returned with zero provider
invocations, zero limiter tokens and without entering the retry policy; on a
miss the full chain executes, a successful value is stored under the call's key
with expiry `now + 300`, and a failure is propagated without being cached. -/
def cachedRun (text : Nat → String → ProviderStream) (c : CacheState)
    (now : Nat) (query : String) (max_results : Int) (as_string : Bool) :
    CachedRunOutput :=
  let key : String × Int × Bool := (query, max_results, as_string)
  match lookupCache c key now with
  | some v =>
    { result := Except.ok v, cache := c, providerInvocations := 0,
      limiterTokens := 0, retryEntered := false }
  | none =>
    let r := runRetried text query max_results as_string
    match r.result with
    | Except.ok v =>
      { result := Except.ok v,
        cache := { entries := (key, { value := v, expiry := now + 300 }) :: c.entries },
        providerInvocations := r.attempts, limiterTokens := r.attempts,
        retryEntered := true }
    | Except.error e =>
      { result := Except.error e, cache := c,
        providerInvocations := r.attempts, limiterTokens := r.attempts,
        retryEntered := true }

/-- `AsyncLimiter(max_rate=1, time_period=1)`: the burst capacity of the shared
rate limiter, from the source's `rate_limiter` field. -/
def rateLimiterMaxRate : ℚ := 1

/-- `AsyncLimiter(max_rate=1, time_period=1)`: the refill period of the shared
rate limiter, in seconds, from the source's `rate_limiter` field. -/
def rateLimiterTimePeriod : ℚ := 1

end DDGAPIWrapper

/-- Modelled from the spec: the shared token-bucket gate of the design's Rate
Limiter component (the `aiolimiter.AsyncLimiter` object the source instantiates
is an external library, out of scope of the repository).  Its state is the
current bucket `level` together with the instant of the last bookkeeping
check. -/
structure LimiterState : Type where
  level : ℚ
  lastCheck : ℚ

/-- Modelled from the spec: the bucket drains continuously at rate
`max_rate / time_period` tokens per time unit, never below empty. -/
def limiterLeak (s : LimiterState) (now : ℚ) : LimiterState :=
  { level := max (s.level - (now - s.lastCheck)
      * (DDGAPIWrapper.rateLimiterMaxRate / DDGAPIWrapper.rateLimiterTimePeriod)) 0,
    lastCheck := now }

/-- Modelled from the spec: an acquisition is admitted at `now` only when a
full token fits under the burst capacity. -/
def limiterHasCapacity (s : LimiterState) (now : ℚ) : Prop :=
  (limiterLeak s now).level + 1 ≤ DDGAPIWrapper.rateLimiterMaxRate

/-- Modelled from the spec: an admitted acquisition consumes one token. -/
def limiterAcquire (s : LimiterState) (now : ℚ) : LimiterState :=
  { level := (limiterLeak s now).level + 1, lastCheck := now }

/-- A valid trace of admission instants through the one shared limiter (all
callers contend on the same instance): time does not run backwards, and every
admission finds a full token free. -/
def validTrace : LimiterState → List ℚ → Prop
  | _, [] => True
  | s, t :: ts => s.lastCheck ≤ t ∧ limiterHasCapacity s t
      ∧ validTrace (limiterAcquire s t) ts

/-- The numeric value of one hexadecimal digit character, `none` otherwise. -/
def hexVal (c : Char) : Option Nat :=
  if 48 ≤ c.toNat ∧ c.toNat ≤ 57 then some (c.toNat - 48)
  else if 97 ≤ c.toNat ∧ c.toNat ≤ 102 then some (c.toNat - 87)
  else if 65 ≤ c.toNat ∧ c.toNat ≤ 70 then some (c.toNat - 55)
  else none

/-- JSON string-body reader: consumes characters up to and including the
closing quote, decoding the escape sequences, and returns the decoded
characters together with the unconsumed input. -/
def parseStrBody : List Char → Option (List Char × List Char)
  | [] => none
  | c :: rest =>
    if c = '"' then some ([], rest)
    else if c = '\\' then
      match rest with
      | [] => none
      | e :: rest2 =>
        if e = '"' then (parseStrBody rest2).map (fun p => ('"' :: p.1, p.2))
        else if e = '\\' then (parseStrBody rest2).map (fun p => ('\\' :: p.1, p.2))
        else if e = 'b' then
          (parseStrBody rest2).map (fun p => (Char.ofNat 8 :: p.1, p.2))
        else if e = 't' then
          (parseStrBody rest2).map (fun p => (Char.ofNat 9 :: p.1, p.2))
        else if e = 'n' then
          (parseStrBody rest2).map (fun p => (Char.ofNat 10 :: p.1, p.2))
        else if e = 'f' then
          (parseStrBody rest2).map (fun p => (Char.ofNat 12 :: p.1, p.2))
        else if e = 'r' then
          (parseStrBody rest2).map (fun p => (Char.ofNat 13 :: p.1, p.2))
        else if e = 'u' then
          match rest2 with
          | h1 :: h2 :: h3 :: h4 :: rest3 =>
            match hexVal h1, hexVal h2, hexVal h3, hexVal h4 with
            | some v1, some v2, some v3, some v4 =>
              (parseStrBody rest3).map
                (fun p => (Char.ofNat (((v1 * 16 + v2) * 16 + v3) * 16 + v4) :: p.1, p.2))
            | _, _, _, _ => none
          | _ => none
        else none
    else (parseStrBody rest).map (fun p => (c :: p.1, p.2))

/-- JSON string-literal reader: an opening quote followed by a string body. -/
def parseQuoted : List Char → Option (String × List Char)
  | [] => none
  | c :: rest =>
    if c = '"' then (parseStrBody rest).map (fun p => (String.mk p.1, p.2))
    else none

/-- Consume the exact token `tok` from the head of the input. -/
def expectTok : List Char → List Char → Option (List Char)
  | [], input => some input
  | _ :: _, [] => none
  | t :: ts, c :: cs => if t = c then expectTok ts cs else none

/-- Reader for one serialized result object, in the shape `json.dumps` emits
for this module: fixed keys `link`, `snippet`, `title`, default separators. -/
def parseResult (input : List Char) : Option (SearchResult × List Char) :=
  match expectTok (lbrace :: keyTok "link") input with
  | none => none
  | some i1 =>
    match parseQuoted i1 with
    | none => none
    | some (link, i2) =>
      match expectTok (sepTok "snippet") i2 with
      | none => none
      | some i3 =>
        match parseQuoted i3 with
        | none => none
        | some (snippet, i4) =>
          match expectTok (sepTok "title") i4 with
          | none => none
          | some i5 =>
            match parseQuoted i5 with
            | none => none
            | some (title, i6) =>
              match expectTok [rbrace] i6 with
              | none => none
              | some i7 =>
                some ({ link := link, snippet := snippet, title := title }, i7)

/-- Reader for the items after the first one: either the closing bracket or an
item-separator `", "` followed by an object.  `fuel` bounds the recursion. -/
def parseMore : Nat → List Char → Option (List SearchResult × List Char)
  | _, [] => none
  | fuel, c :: rest =>
    if c = ']' then some ([], rest)
    else if c = ',' then
      match fuel, rest with
      | fuel2 + 1, c2 :: rest2 =>
        if c2 = ' ' then
          match parseResult rest2 with
          | some (r, i) =>
            match parseMore fuel2 i with
            | some (rs, i2) => some (r :: rs, i2)
            | none => none
          | none => none
        else none
      | _, _ => none
    else none

/-- Reader for a JSON array of result objects in the emitted shape. -/
def parseArray (input : List Char) : Option (List SearchResult × List Char) :=
  match input with
  | [] => none
  | c :: rest =>
    if c = '[' then
      if rest.head? = some ']' then some ([], rest.tail)
      else
        match parseResult rest with
        | some (r, i) =>
          match parseMore i.length i with
          | some (rs, i2) => some (r :: rs, i2)
          | none => none
        | none => none
    else none

/-- Parse a whole string as a JSON array of result objects: the parse must
consume the entire input. -/
def parseResults (s : String) : Option (List SearchResult) :=
  match parseArray s.data with
  | some (l, []) => some l
  | _ => none

/-! ### Helper lemmas about the search comprehension and `run` -/

lemma searchAux_ok {k : Nat} {items : List DDGRecord} {err : Option PyBaseErr}
    {l : List SearchResult} {n : Nat}
    (h : DDGAPIWrapper.searchAux k items err = (Except.ok l, n)) :
    l.length = min k items.length ∧ n = l.length
      ∧ (k ≤ items.length ∨ err = none)
      ∧ ∀ i (hi : i < l.length) (hj : i < items.length),
          normalizeRecord (items.get ⟨i, hj⟩) = Except.ok (l.get ⟨i, hi⟩) := by
  induction items generalizing k l n with
  | nil =>
    cases k with
    | zero =>
      simp only [DDGAPIWrapper.searchAux, Prod.mk.injEq, Except.ok.injEq] at h
      obtain ⟨h1, h2⟩ := h
      subst h1; subst h2
      simp
    | succ k =>
      cases err with
      | none =>
        simp only [DDGAPIWrapper.searchAux, Prod.mk.injEq, Except.ok.injEq] at h
        obtain ⟨h1, h2⟩ := h
        subst h1; subst h2
        simp
      | some e => simp [DDGAPIWrapper.searchAux] at h
  | cons r rest ih =>
    cases k with
    | zero =>
      simp only [DDGAPIWrapper.searchAux, Prod.mk.injEq, Except.ok.injEq] at h
      obtain ⟨h1, h2⟩ := h
      subst h1; subst h2
      simp
    | succ k =>
      rw [DDGAPIWrapper.searchAux] at h
      cases hn : normalizeRecord r with
      | error e => rw [hn] at h; simp at h
      | ok s =>
        rw [hn] at h
        cases hs : DDGAPIWrapper.searchAux k rest err with
        | mk res cnt =>
          rw [hs] at h
          cases res with
          | error e => simp at h
          | ok l2 =>
            simp only [Prod.mk.injEq, Except.ok.injEq] at h
            obtain ⟨h1, h2⟩ := h
            subst h1
            obtain ⟨hl, hnn, hk, hget⟩ := ih hs
            refine ⟨?_, ?_, ?_, ?_⟩
            · simp [hl, Nat.succ_min_succ]
            · simp at hnn ⊢
              omega
            · rcases hk with hk | hk
              · left
                simpa using Nat.succ_le_succ hk
              · right
                exact hk
            · intro i hi hj
              cases i with
              | zero => simpa using hn
              | succ i =>
                have hi2 : i < l2.length := by simpa using hi
                have hj2 : i < rest.length := by simpa using hj
                simpa using hget i hi2 hj2

lemma run_of_searchOk {text : String → ProviderStream} {query : String}
    {k : Int} {l : List SearchResult} {n : Nat} (b : Bool)
    (h : DDGAPIWrapper.searchFromDdgs text query k = (Except.ok l, n)) :
    DDGAPIWrapper.run text query k b =
      { result := Except.ok (if b then Sum.inl (jsonDumps l) else Sum.inr l),
        recordsConsumed := n, limiterTokens := 1, providerInvocations := 1 } := by
  simp only [DDGAPIWrapper.run, h]

lemma run_of_searchErr {text : String → ProviderStream} {query : String}
    {k : Int} {e : PyBaseErr} {n : Nat} (b : Bool)
    (h : DDGAPIWrapper.searchFromDdgs text query k = (Except.error e, n)) :
    DDGAPIWrapper.run text query k b =
      { result := Except.error (classifyError e), recordsConsumed := n,
        limiterTokens := 1, providerInvocations := 1 } := by
  simp only [DDGAPIWrapper.run, h]

lemma run_result_cases (text : String → ProviderStream) (query : String)
    (k : Int) (b : Bool) :
    (∃ l n, DDGAPIWrapper.searchFromDdgs text query k = (Except.ok l, n)
        ∧ (DDGAPIWrapper.run text query k b).result
          = Except.ok (if b then Sum.inl (jsonDumps l) else Sum.inr l))
    ∨ (∃ e n, DDGAPIWrapper.searchFromDdgs text query k = (Except.error e, n)
        ∧ (DDGAPIWrapper.run text query k b).result
          = Except.error (classifyError e)) := by
  cases hs : DDGAPIWrapper.searchFromDdgs text query k with
  | mk res cnt =>
    cases res with
    | ok l => exact Or.inl ⟨l, cnt, rfl, by rw [run_of_searchOk b hs]⟩
    | error e => exact Or.inr ⟨e, cnt, rfl, by rw [run_of_searchErr b hs]⟩

lemma classifyError_shape (e : PyBaseErr) :
    (containsSub "Ratelimit" e.str = true
        ∧ classifyError e = PyErr.ddgError "Rate limit exceeded" (some e))
    ∨ (containsSub "Ratelimit" e.str = false
        ∧ classifyError e
          = PyErr.ddgError "An error occurred during search" (some e)) := by
  by_cases hc : containsSub "Ratelimit" e.str
  · exact Or.inl ⟨hc, by simp [classifyError, hc]⟩
  · exact Or.inr ⟨by simpa using hc, by simp [classifyError, hc]⟩

lemma isRetryableErr_classify (e : PyBaseErr) :
    isRetryableErr (classifyError e) = true := by
  rcases classifyError_shape e with ⟨_, h⟩ | ⟨_, h⟩ <;> rw [h] <;> rfl

/-! ### Helper lemmas about the tenacity retry loop -/

lemma retryAux_shape {α : Type} (f : Nat → Except PyErr α) :
    ∀ left attempt,
      (retryAux f attempt left).waits
        = (List.range ((retryAux f attempt left).attempts - 1)).map
            (fun i => waitExponential (attempt + i))
      ∧ 1 ≤ (retryAux f attempt left).attempts
      ∧ (retryAux f attempt left).attempts ≤ left + 1 := by
  intro left
  induction left with
  | zero => intro attempt; simp [retryAux]
  | succ left ih =>
    intro attempt
    rw [retryAux]
    cases hf : f attempt with
    | ok a => simp
    | error e =>
      by_cases hr : isRetryableErr e
      · simp only [hr, if_pos]
        obtain ⟨hw, h1, h2⟩ := ih (attempt + 1)
        refine ⟨?_, by simp [Nat.le_succ_of_le h1], by simpa using Nat.succ_le_succ h2⟩
        simp only [Nat.add_sub_cancel]
        obtain ⟨m, hm⟩ : ∃ m, (retryAux f (attempt + 1) left).attempts = m + 1 :=
          ⟨(retryAux f (attempt + 1) left).attempts - 1, by omega⟩
        rw [hm] at hw ⊢
        rw [List.range_succ_eq_map]
        simp only [List.map_cons, List.map_map]
        rw [hw]
        simp only [Nat.add_sub_cancel]
        have hfun : (fun i => waitExponential (attempt + 1 + i))
            = ((fun i => waitExponential (attempt + i)) ∘ Nat.succ) := by
          funext i
          simp only [Function.comp]
          congr 1
          omega
        rw [hfun]
        simp
      · simp [hr]

lemma retryAux_allFail {α : Type} (f : Nat → Except PyErr α) :
    ∀ left attempt,
      (∀ j, attempt ≤ j → j ≤ attempt + left →
        ∃ e, f j = Except.error e ∧ isRetryableErr e = true) →
      (retryAux f attempt left).result = f (attempt + left)
        ∧ (retryAux f attempt left).attempts = left + 1 := by
  intro left
  induction left with
  | zero =>
    intro attempt _
    simp [retryAux]
  | succ left ih =>
    intro attempt hall
    obtain ⟨e, hfe, hre⟩ := hall attempt (Nat.le_refl _) (Nat.le_add_right _ _)
    rw [retryAux, hfe]
    simp only [hre, if_pos]
    obtain ⟨h1, h2⟩ := ih (attempt + 1) (fun j hj1 hj2 => hall j (by omega) (by omega))
    constructor
    · rw [h1]; congr 1; omega
    · simp [h2]

lemma retryAux_notRetryable {α : Type} (f : Nat → Except PyErr α)
    {e : PyErr} (left attempt : Nat) (hf : f attempt = Except.error e)
    (hr : isRetryableErr e = false) :
    retryAux f attempt left
      = { result := Except.error e, attempts := 1, waits := [] } := by
  cases left with
  | zero => simp [retryAux, hf]
  | succ left => rw [retryAux, hf]; simp [hr]

lemma retryAux_error_source {α : Type} (f : Nat → Except PyErr α) :
    ∀ left attempt e, (retryAux f attempt left).result = Except.error e →
      ∃ j, attempt ≤ j ∧ j ≤ attempt + left ∧ f j = Except.error e := by
  intro left
  induction left with
  | zero =>
    intro attempt e h
    simp only [retryAux] at h
    exact ⟨attempt, Nat.le_refl _, by omega, h⟩
  | succ left ih =>
    intro attempt e h
    rw [retryAux] at h
    cases hf : f attempt with
    | ok a => rw [hf] at h; simp at h
    | error e2 =>
      rw [hf] at h
      by_cases hr : isRetryableErr e2
      · simp only [hr, if_pos] at h
        obtain ⟨j, hj1, hj2, hj3⟩ := ih (attempt + 1) e h
        exact ⟨j, by omega, by omega, hj3⟩
      · simp only [hr] at h
        simp at h
        exact ⟨attempt, Nat.le_refl _, by omega, by rw [hf, h]⟩

lemma waitExponential_bounds (a : Nat) :
    4 ≤ waitExponential a ∧ waitExponential a ≤ 10 := by
  unfold waitExponential
  constructor
  · exact le_trans (by norm_num) (Nat.le_max_left _ _)
  · exact Nat.max_le.mpr ⟨by norm_num, Nat.min_le_right _ _⟩

lemma waitExponential_mono {a b : Nat} (h : a ≤ b) :
    waitExponential a ≤ waitExponential b := by
  unfold waitExponential
  have hp : 2 ^ a ≤ 2 ^ b := Nat.pow_le_pow_right (by norm_num) h
  have : min (1 * 2 ^ a) 10 ≤ min (1 * 2 ^ b) 10 := by
    simp only [one_mul]
    exact min_le_min hp (le_refl 10)
  omega

/-! ### The printer–parser round trip for the emitted JSON -/

lemma hexVal_hexDig {n : Nat} (h : n < 16) : hexVal (hexDig n) = some n := by
  have hall : ∀ m, m < 16 → hexVal (hexDig m) = some m := by decide
  exact hall n h

lemma parseStrBody_esc (c : Char) (xs : List Char) :
    parseStrBody (escChar c ++ xs)
      = (parseStrBody xs).map (fun p => (c :: p.1, p.2)) := by
  by_cases h1 : c = '"'
  · subst h1
    rw [show escChar '"' ++ xs = '\\' :: '"' :: xs from rfl]
    rw [parseStrBody.eq_def]
    simp
  · by_cases h2 : c = '\\'
    · subst h2
      rw [show escChar '\\' ++ xs = '\\' :: '\\' :: xs from rfl]
      rw [parseStrBody.eq_def]
      simp
    · by_cases h3 : c = Char.ofNat 8
      · subst h3
        rw [show escChar (Char.ofNat 8) ++ xs = '\\' :: 'b' :: xs from rfl]
        rw [parseStrBody.eq_def]
        simp
      · by_cases h4 : c = Char.ofNat 9
        · subst h4
          rw [show escChar (Char.ofNat 9) ++ xs = '\\' :: 't' :: xs from rfl]
          rw [parseStrBody.eq_def]
          simp
        · by_cases h5 : c = Char.ofNat 10
          · subst h5
            rw [show escChar (Char.ofNat 10) ++ xs = '\\' :: 'n' :: xs from rfl]
            rw [parseStrBody.eq_def]
            simp
          · by_cases h6 : c = Char.ofNat 12
            · subst h6
              rw [show escChar (Char.ofNat 12) ++ xs = '\\' :: 'f' :: xs from rfl]
              rw [parseStrBody.eq_def]
              simp
            · by_cases h7 : c = Char.ofNat 13
              · subst h7
                rw [show escChar (Char.ofNat 13) ++ xs = '\\' :: 'r' :: xs from rfl]
                rw [parseStrBody.eq_def]
                simp
              · by_cases h8 : c.toNat < 32
                · have e1 : escChar c ++ xs = '\\' :: 'u' :: '0' :: '0'
                      :: hexDig (c.toNat / 16) :: hexDig (c.toNat % 16) :: xs := by
                    simp only [escChar, if_neg h1, if_neg h2, if_neg h3,
                      if_neg h4, if_neg h5, if_neg h6, if_neg h7, if_pos h8]
                    rfl
                  rw [e1]
                  rw [parseStrBody.eq_def]
                  simp only [hexVal_hexDig (show c.toNat / 16 < 16 by omega),
                    hexVal_hexDig (show c.toNat % 16 < 16 by omega),
                    show hexVal '0' = some 0 from rfl]
                  simp only [reduceIte]
                  have harg : c.toNat / 16 * 16 + c.toNat % 16 = c.toNat := by
                    omega
                  simp [harg, Char.ofNat_toNat]
                · have e1 : escChar c ++ xs = c :: xs := by
                    simp only [escChar, if_neg h1, if_neg h2, if_neg h3,
                      if_neg h4, if_neg h5, if_neg h6, if_neg h7, if_neg h8]
                    rfl
                  rw [e1]
                  rw [parseStrBody.eq_def]
                  simp only [if_neg h1, if_neg h2]

lemma stringMk_data (s : String) : String.mk s.data = s := by
  cases s
  rfl

lemma parseStrBody_enc (s : List Char) (xs : List Char) :
    parseStrBody ((s.map escChar).flatten ++ '"' :: xs) = some (s, xs) := by
  induction s with
  | nil =>
    simp only [List.map_nil, List.flatten_nil, List.nil_append]
    rw [parseStrBody.eq_def]
    simp
  | cons c s ih =>
    simp only [List.map_cons, List.flatten_cons, List.append_assoc]
    rw [parseStrBody_esc, ih]
    rfl

lemma parseQuoted_enc (s : String) (xs : List Char) :
    parseQuoted (encString s ++ xs) = some (s, xs) := by
  have e1 : encString s ++ xs = '"' :: ((s.data.map escChar).flatten ++ '"' :: xs) := by
    simp [encString]
  rw [e1, parseQuoted]
  rw [if_pos rfl, parseStrBody_enc]
  simp [stringMk_data]

lemma expectTok_self (t rest : List Char) : expectTok t (t ++ rest) = some rest := by
  induction t with
  | nil => rfl
  | cons c t ih => simp [expectTok, ih]

lemma parseResult_enc (r : SearchResult) (xs : List Char) :
    parseResult (encResult r ++ xs) = some (r, xs) := by
  have e1 : encResult r ++ xs
      = (lbrace :: keyTok "link") ++ (encString r.link ++ (sepTok "snippet"
        ++ (encString r.snippet ++ (sepTok "title" ++ (encString r.title
        ++ ([rbrace] ++ xs)))))) := by
    simp [encResult, List.append_assoc]
  rw [e1]
  simp only [parseResult, expectTok_self, parseQuoted_enc]

lemma length_le_encTail (l : List SearchResult) : l.length ≤ (encTail l).length := by
  induction l with
  | nil => simp [encTail]
  | cons r rest ih =>
    simp only [encTail, List.length_cons, List.length_append]
    omega

lemma parseMore_enc :
    ∀ (l : List SearchResult) (fuel : Nat) (xs : List Char), l.length ≤ fuel →
      parseMore fuel (encTail l ++ ']' :: xs) = some (l, xs) := by
  intro l
  induction l with
  | nil =>
    intro fuel xs _
    rw [encTail]
    simp only [List.nil_append]
    rw [parseMore.eq_def]
    cases fuel <;> simp
  | cons r rest ih =>
    intro fuel xs hf
    simp only [List.length_cons] at hf
    cases fuel with
    | zero => omega
    | succ fuel =>
      rw [encTail]
      simp only [List.cons_append, List.append_assoc]
      rw [parseMore.eq_def]
      simp only [if_neg (show ¬(',' : Char) = ']' by decide), reduceIte,
        parseResult_enc, ih fuel xs (by omega)]

lemma parseResults_jsonDumps (l : List SearchResult) :
    parseResults (jsonDumps l) = some l := by
  cases l with
  | nil => rfl
  | cons r rest =>
    have hdata : (jsonDumps (r :: rest)).data
        = '[' :: (encResult r ++ (encTail rest ++ [']'])) := by
      simp [jsonDumps, encItems, List.append_assoc]
    have hhead : (encResult r ++ (encTail rest ++ [']'])).head? = some lbrace := by
      simp [encResult, List.cons_append]
    have hfuel : rest.length ≤ (encTail rest ++ [']']).length := by
      have := length_le_encTail rest
      simp only [List.length_append]
      omega
    have hmore : parseMore (encTail rest ++ [']']).length (encTail rest ++ [']'])
        = some (rest, []) := parseMore_enc rest _ [] hfuel
    have harr : parseArray ('[' :: (encResult r ++ (encTail rest ++ [']'])))
        = some (r :: rest, []) := by
      rw [parseArray]
      rw [if_pos rfl, hhead]
      rw [if_neg (by decide : ¬(some lbrace = some ']'))]
      rw [parseResult_enc]
      simp only [hmore]
    rw [parseResults, hdata, harr]

/-! ### Helper lemmas about the rate limiter model and effects -/

lemma validTrace_pair {s : LimiterState} {t1 t2 : ℚ} {ts : List ℚ}
    (h : validTrace s (t1 :: t2 :: ts)) : t1 + 1 ≤ t2 := by
  obtain ⟨hle, hcap, hrest⟩ := h
  obtain ⟨hle2, hcap2, _⟩ := hrest
  simp only [limiterHasCapacity, limiterAcquire, limiterLeak,
    DDGAPIWrapper.rateLimiterMaxRate,
    DDGAPIWrapper.rateLimiterTimePeriod] at hcap hcap2
  norm_num at hcap hcap2
  have hge : (0 : ℚ) ≤ max (s.level - (t1 - s.lastCheck)) 0 := le_max_right _ _
  linarith

lemma validTrace_spacing :
    ∀ (ts : List ℚ) (s : LimiterState), validTrace s ts →
      List.Chain' (fun a b => a + 1 ≤ b) ts := by
  intro ts
  induction ts with
  | nil => intro s _; exact List.chain'_nil
  | cons t1 ts ih =>
    intro s h
    cases ts with
    | nil => simp
    | cons t2 ts2 =>
      rw [List.chain'_cons]
      exact ⟨validTrace_pair h, ih _ h.2.2⟩

lemma run_effects (text : String → ProviderStream) (query : String) (k : Int)
    (b : Bool) :
    (DDGAPIWrapper.run text query k b).limiterTokens = 1
    ∧ (DDGAPIWrapper.run text query k b).providerInvocations = 1 := by
  rcases run_result_cases text query k b with ⟨l, n, hs, _⟩ | ⟨e, n, hs, _⟩
  · rw [run_of_searchOk b hs]
    exact ⟨rfl, rfl⟩
  · rw [run_of_searchErr b hs]
    exact ⟨rfl, rfl⟩

lemma escChar_plain {c : Char} (h : 32 ≤ c.toNat) (hq : c ≠ '"')
    (hb : c ≠ '\\') : escChar c = [c] := by
  have h3 : c ≠ Char.ofNat 8 := fun hc => by
    rw [hc] at h; exact absurd h (by decide)
  have h4 : c ≠ Char.ofNat 9 := fun hc => by
    rw [hc] at h; exact absurd h (by decide)
  have h5 : c ≠ Char.ofNat 10 := fun hc => by
    rw [hc] at h; exact absurd h (by decide)
  have h6 : c ≠ Char.ofNat 12 := fun hc => by
    rw [hc] at h; exact absurd h (by decide)
  have h7 : c ≠ Char.ofNat 13 := fun hc => by
    rw [hc] at h; exact absurd h (by decide)
  simp only [escChar, if_neg hq, if_neg hb, if_neg h3, if_neg h4, if_neg h5,
    if_neg h6, if_neg h7, if_neg (show ¬ c.toNat < 32 by omega)]

/-! ### Concrete fixtures used by the witnesses and counterexamples -/

def recFull1 : DDGRecord :=
  { fields := [("href", "h1"), ("body", "b1"), ("title", "t1")] }

def recFull2 : DDGRecord :=
  { fields := [("href", "hé2"), ("body", "b2"), ("title", "t2")] }

def recMissingHref : DDGRecord := { fields := [("body", "b"), ("title", "t")] }

def streamTwo : ProviderStream := { items := [recFull1, recFull2], err := none }

def streamRatelimit : ProviderStream :=
  { items := [], err := some (PyBaseErr.providerError "Ratelimit exceeded") }

def streamBoom : ProviderStream :=
  { items := [], err := some (PyBaseErr.providerError "boom") }

def resultsTwo : List SearchResult :=
  [ { link := "h1", snippet := "b1", title := "t1" },
    { link := "hé2", snippet := "b2", title := "t2" } ]

/-! ### The claims -/

/-- Claim C1: for every query and every `max_results = k ≥ 0`, the sequence
returned by the search invocation (`_search_from_ddgs`) has length `≤ k`; its
length equals the number of records the provider yields when that number is
less than `k`; and its elements are the first provider records in provider
order, each mapped to `{link: href, snippet: body, title: title}` — which is
exactly `normalizeRecord`. -/
theorem claim_C1 (text : String → ProviderStream) (query : String) (k : Int)
    (_hk : 0 ≤ k) (l : List SearchResult) (n : Nat)
    (h : DDGAPIWrapper.searchFromDdgs text query k = (Except.ok l, n)) :
    l.length ≤ k.toNat
    ∧ ((text query).items.length < k.toNat →
        l.length = (text query).items.length)
    ∧ l.length = min k.toNat (text query).items.length
    ∧ ∀ i (hi : i < l.length) (hj : i < (text query).items.length),
        normalizeRecord ((text query).items.get ⟨i, hj⟩)
          = Except.ok (l.get ⟨i, hi⟩) := by
  have h2 : DDGAPIWrapper.searchAux k.toNat (text query).items (text query).err
      = (Except.ok l, n) := h
  obtain ⟨hl, hn, hrange, hget⟩ := searchAux_ok h2
  refine ⟨?_, ?_, hl, hget⟩
  · rw [hl]
    exact Nat.min_le_left _ _
  · intro hlt
    rw [hl]
    omega

/-- Witness for C1: a provider yielding two records with `max_results = 5`. -/
theorem claim_C1_witness :
    resultsTwo.length ≤ (5 : Int).toNat
    ∧ resultsTwo.length = min (5 : Int).toNat streamTwo.items.length := by
  have h := claim_C1 (fun _ => streamTwo) "rust programming" 5 (by norm_num)
    resultsTwo 2 (by rfl)
  exact ⟨h.1, h.2.2.1⟩

/-- Claim C2: for every query and `max_results`, the value returned with
`as_string = true` is exactly the JSON array serialization of the list returned
with `as_string = false` for the same provider output; parsing that string back
yields the same elements in the same order; and non-ASCII characters are
preserved without escaping. -/
theorem claim_C2 (text : String → ProviderStream) (query : String) (k : Int)
    (l : List SearchResult)
    (h : (DDGAPIWrapper.run text query k false).result
        = Except.ok (Sum.inr l)) :
    (DDGAPIWrapper.run text query k true).result
        = Except.ok (Sum.inl (jsonDumps l))
    ∧ parseResults (jsonDumps l) = some l
    ∧ ∀ c : Char, 128 ≤ c.toNat → escChar c = [c] := by
  rcases run_result_cases text query k false with ⟨l2, n, hs, hres⟩ | ⟨e, n, hs, hres⟩
  · rw [hres] at h
    simp only [if_neg (Bool.false_ne_true), Except.ok.injEq, Sum.inr.injEq] at h
    subst h
    refine ⟨?_, parseResults_jsonDumps l2, ?_⟩
    · rw [run_of_searchOk true hs]
      rfl
    · intro c hc
      refine escChar_plain (by omega) ?_ ?_
      · intro hq
        rw [hq] at hc
        exact absurd hc (by decide)
      · intro hb
        rw [hb] at hc
        exact absurd hc (by decide)
  · rw [hres] at h
    simp at h

/-- Witness for C2: the two-record provider (the second record's `href`
contains the non-ASCII character `é` = U+00E9). -/
theorem claim_C2_witness :
    (DDGAPIWrapper.run (fun _ => streamTwo) "rust programming" 2 true).result
        = Except.ok (Sum.inl (jsonDumps resultsTwo))
    ∧ parseResults (jsonDumps resultsTwo) = some resultsTwo
    ∧ escChar (Char.ofNat 233) = [Char.ofNat 233] := by
  have h := claim_C2 (fun _ => streamTwo) "rust programming" 2 resultsTwo (by rfl)
  exact ⟨h.1, h.2.1, h.2.2 (Char.ofNat 233) (by decide)⟩

/-- Claim C9: for every query and every `max_results ≤ 0` (including negative
values), the call returns the empty list when `as_string = false` and the
string `"[]"` when `as_string = true`, consumes no record from the provider's
result sequence, and succeeds even if the stream would raise. -/
theorem claim_C9 (text : String → ProviderStream) (query : String) (k : Int)
    (hk : k ≤ 0) :
    DDGAPIWrapper.run text query k false
      = { result := Except.ok (Sum.inr []), recordsConsumed := 0,
          limiterTokens := 1, providerInvocations := 1 }
    ∧ DDGAPIWrapper.run text query k true
      = { result := Except.ok (Sum.inl "[]"), recordsConsumed := 0,
          limiterTokens := 1, providerInvocations := 1 } := by
  have h0 : k.toNat = 0 := Int.toNat_of_nonpos hk
  have hs : DDGAPIWrapper.searchFromDdgs text query k = (Except.ok [], 0) := by
    unfold DDGAPIWrapper.searchFromDdgs
    rw [h0]
    rfl
  constructor
  · rw [run_of_searchOk false hs]
    rfl
  · rw [run_of_searchOk true hs]
    rfl

/-- Witness for C9 at `max_results = -3` against a provider whose stream would
raise if pulled. -/
theorem claim_C9_witness :
    DDGAPIWrapper.run (fun _ => streamBoom) "q" (-3) false
      = { result := Except.ok (Sum.inr []), recordsConsumed := 0,
          limiterTokens := 1, providerInvocations := 1 }
    ∧ DDGAPIWrapper.run (fun _ => streamBoom) "q" (-3) true
      = { result := Except.ok (Sum.inl "[]"), recordsConsumed := 0,
          limiterTokens := 1, providerInvocations := 1 } :=
  claim_C9 (fun _ => streamBoom) "q" (-3) (by norm_num)

/-- Claim C3: the call is retried only for `DuckDuckGoSearchException`
(tenacity `retry_if_exception_type`); the waits between attempts follow
`wait_exponential(multiplier=1, min=4, max=10)`, i.e.
`max 4 (min (2 ^ attempt) 10)`, all in `[4, 10]` and non-decreasing; at most 5
attempts are made (`stop_after_attempt(5)`); and when all 5 attempts fail with
the retryable kind, the provider has been invoked exactly 5 times (one
invocation per attempt) and the 5th attempt's error propagates unmodified
(`reraise=True`). -/
theorem claim_C3 (text : Nat → String → ProviderStream) (query : String)
    (k : Int) (b : Bool) :
    (∀ {α : Type} (f : Nat → Except PyErr α) (e : PyErr),
        f 1 = Except.error e → isRetryableErr e = false →
        retryRun f = { result := Except.error e, attempts := 1, waits := [] })
    ∧ (∀ a, (DDGAPIWrapper.run (text a) query k b).providerInvocations = 1)
    ∧ 1 ≤ (DDGAPIWrapper.runRetried text query k b).attempts
    ∧ (DDGAPIWrapper.runRetried text query k b).attempts ≤ 5
    ∧ (DDGAPIWrapper.runRetried text query k b).waits
        = (List.range ((DDGAPIWrapper.runRetried text query k b).attempts - 1)).map
            (fun i => waitExponential (i + 1))
    ∧ (∀ a, waitExponential a = max 4 (min (2 ^ a) 10))
    ∧ (∀ w ∈ (DDGAPIWrapper.runRetried text query k b).waits, 4 ≤ w ∧ w ≤ 10)
    ∧ List.Chain' (fun w1 w2 => w1 ≤ w2)
        (DDGAPIWrapper.runRetried text query k b).waits
    ∧ ((∀ a, 1 ≤ a → a ≤ 5 →
          ∃ e, (DDGAPIWrapper.run (text a) query k b).result = Except.error e
            ∧ isRetryableErr e = true) →
        (DDGAPIWrapper.runRetried text query k b).attempts = 5
        ∧ (DDGAPIWrapper.runRetried text query k b).result
            = (DDGAPIWrapper.run (text 5) query k b).result
        ∧ (DDGAPIWrapper.runRetried text query k b).waits = [4, 4, 8, 10]) := by
  simp only [DDGAPIWrapper.runRetried, retryRun]
  have hshape := retryAux_shape
    (fun a => (DDGAPIWrapper.run (text a) query k b).result) 4 1
  have hfun : (fun i => waitExponential (1 + i)) = (fun i => waitExponential (i + 1)) := by
    funext i
    rw [Nat.add_comm]
  refine ⟨?_, ?_, hshape.2.1, hshape.2.2, ?_, ?_, ?_, ?_, ?_⟩
  · intro α f e hf hr
    exact retryAux_notRetryable f 4 1 hf hr
  · intro a
    exact (run_effects (text a) query k b).2
  · rw [hshape.1, hfun]
  · intro a
    simp [waitExponential]
  · intro w hw
    rw [hshape.1] at hw
    simp only [List.mem_map, List.mem_range] at hw
    obtain ⟨i, _, rfl⟩ := hw
    exact waitExponential_bounds _
  · rw [hshape.1]
    rcases hn : (retryAux
        (fun a => (DDGAPIWrapper.run (text a) query k b).result) 1 4).attempts - 1
      with _ | m
    · simp
    · rw [List.chain'_map]
      rw [List.chain'_range_succ]
      intro j hj
      exact waitExponential_mono (by omega)
  · intro hall
    obtain ⟨hres, hatt⟩ := retryAux_allFail
      (fun a => (DDGAPIWrapper.run (text a) query k b).result) 4 1
      (fun j hj1 hj2 => hall j hj1 (by omega))
    refine ⟨hatt, hres, ?_⟩
    rw [hshape.1, hatt]
    rfl

/-- Witness for C3: a provider that raises `Exception("boom")` on every
attempt; every attempt's failure is classified as retryable, all 5 attempts
run, and the waits are 4, 4, 8, 10. -/
theorem claim_C3_witness :
    (DDGAPIWrapper.runRetried (fun _ _ => streamBoom) "q" 2 true).attempts = 5
    ∧ (DDGAPIWrapper.runRetried (fun _ _ => streamBoom) "q" 2 true).waits
        = [4, 4, 8, 10] := by
  have h := (claim_C3 (fun _ _ => streamBoom) "q" 2 true).2.2.2.2.2.2.2.2
    (fun a h1 h2 => ⟨PyErr.ddgError "An error occurred during search"
      (some (PyBaseErr.providerError "boom")), by rfl, by rfl⟩)
  exact ⟨h.1, h.2.2⟩

/-- Claim C6: every failure raised during the rate-limited provider invocation
is classified before propagating: the raised error is always the
`DuckDuckGoSearchException` produced by `classifyError` from the original
failure — `"Rate limit exceeded"` when the original `str(e)` contains the
case-sensitive substring `"Ratelimit"`, `"An error occurred during search"`
otherwise — so no provider-raised exception escapes `run` under its original
type. -/
theorem claim_C6 (text : String → ProviderStream) (query : String) (k : Int)
    (b : Bool) (e : PyErr)
    (h : (DDGAPIWrapper.run text query k b).result = Except.error e) :
    ∃ e0, (DDGAPIWrapper.searchFromDdgs text query k).1 = Except.error e0
      ∧ e = classifyError e0
      ∧ isRetryableErr e = true
      ∧ (containsSub "Ratelimit" e0.str = true →
          e = PyErr.ddgError "Rate limit exceeded" (some e0))
      ∧ (containsSub "Ratelimit" e0.str = false →
          e = PyErr.ddgError "An error occurred during search" (some e0)) := by
  rcases run_result_cases text query k b with ⟨l, n, hs, hres⟩ | ⟨e0, n, hs, hres⟩
  · rw [hres] at h
    simp at h
  · rw [hres] at h
    simp only [Except.error.injEq] at h
    subst h
    refine ⟨e0, by rw [hs], rfl, isRetryableErr_classify e0, ?_, ?_⟩
    · intro hc
      simp [classifyError, hc]
    · intro hc
      simp [classifyError, hc]

/-- Witness for C6: the provider raises `Exception("Ratelimit exceeded")`. -/
theorem claim_C6_witness :
    (DDGAPIWrapper.run (fun _ => streamRatelimit) "q" 1 true).result
      = Except.error (PyErr.ddgError "Rate limit exceeded"
          (some (PyBaseErr.providerError "Ratelimit exceeded")))
    ∧ isRetryableErr (PyErr.ddgError "Rate limit exceeded"
          (some (PyBaseErr.providerError "Ratelimit exceeded"))) = true := by
  have h : (DDGAPIWrapper.run (fun _ => streamRatelimit) "q" 1 true).result
      = Except.error (PyErr.ddgError "Rate limit exceeded"
          (some (PyBaseErr.providerError "Ratelimit exceeded"))) := by rfl
  obtain ⟨e0, hs, he, hr, _, _⟩ := claim_C6 (fun _ => streamRatelimit) "q" 1 true _ h
  exact ⟨h, hr⟩

/-- Claim C8: no partial results on failure.  A successful comprehension always
has the full length `min k n` and can only succeed when the stream's failure
was never reached (`err = none` or `k ≤ n`); when the stream raises before `k`
records were yielded the comprehension raises; and a raised comprehension error
makes `run` raise (classified), never return a truncated list. -/
theorem claim_C8 (text : String → ProviderStream) (query : String) (k : Int)
    (b : Bool) :
    (∀ l n, DDGAPIWrapper.searchFromDdgs text query k = (Except.ok l, n) →
        l.length = min k.toNat (text query).items.length
        ∧ (k.toNat ≤ (text query).items.length ∨ (text query).err = none))
    ∧ (∀ e, (text query).err = some e → (text query).items.length < k.toNat →
        ∃ e2, (DDGAPIWrapper.searchFromDdgs text query k).1 = Except.error e2)
    ∧ (∀ e n, DDGAPIWrapper.searchFromDdgs text query k = (Except.error e, n) →
        (DDGAPIWrapper.run text query k b).result
          = Except.error (classifyError e)) := by
  refine ⟨?_, ?_, ?_⟩
  · intro l n h
    have h2 : DDGAPIWrapper.searchAux k.toNat (text query).items (text query).err
        = (Except.ok l, n) := h
    obtain ⟨hl, _, hrange, _⟩ := searchAux_ok h2
    exact ⟨hl, hrange⟩
  · intro e herr hlen
    rcases hs : DDGAPIWrapper.searchFromDdgs text query k with ⟨res, n⟩
    cases res with
    | ok l =>
      have h2 : DDGAPIWrapper.searchAux k.toNat (text query).items (text query).err
          = (Except.ok l, n) := hs
      obtain ⟨_, _, hrange, _⟩ := searchAux_ok h2
      rcases hrange with hk2 | hnone
      · omega
      · rw [herr] at hnone
        cases hnone
    | error e2 =>
      exact ⟨e2, by simp [hs]⟩
  · intro e n h
    rw [run_of_searchErr b h]

/-- Witness for C8: the stream raises immediately and `max_results = 2`, so the
call raises the classified error instead of returning a truncated list. -/
theorem claim_C8_witness :
    (DDGAPIWrapper.run (fun _ => streamBoom) "q" 2 true).result
      = Except.error (classifyError (PyBaseErr.providerError "boom")) :=
  (claim_C8 (fun _ => streamBoom) "q" 2 true).2.2
    (PyBaseErr.providerError "boom") 0 (by rfl)

/-- Claim C10: every error the (retried) search call raises to its caller
carries one of exactly two fixed messages — `"Rate limit exceeded"` when the
underlying failure's message contains `"Ratelimit"`, and
`"An error occurred during search"` otherwise — with the underlying provider
error preserved only as the chained cause. -/
theorem claim_C10 (text : Nat → String → ProviderStream) (query : String)
    (k : Int) (b : Bool) (e : PyErr)
    (h : (DDGAPIWrapper.runRetried text query k b).result = Except.error e) :
    (∃ e0, e = PyErr.ddgError "Rate limit exceeded" (some e0)
        ∧ containsSub "Ratelimit" e0.str = true)
    ∨ (∃ e0, e = PyErr.ddgError "An error occurred during search" (some e0)
        ∧ containsSub "Ratelimit" e0.str = false) := by
  have h2 : (retryAux
      (fun a => (DDGAPIWrapper.run (text a) query k b).result) 1 4).result
      = Except.error e := h
  obtain ⟨j, hj1, hj2, hfj⟩ := retryAux_error_source _ 4 1 e h2
  rcases run_result_cases (text j) query k b with ⟨l, n, hs, hres⟩ | ⟨e0, n, hs, hres⟩
  · rw [hres] at hfj
    simp at hfj
  · rw [hres] at hfj
    simp only [Except.error.injEq] at hfj
    rcases classifyError_shape e0 with ⟨hc, hcl⟩ | ⟨hc, hcl⟩
    · exact Or.inl ⟨e0, by rw [← hfj, hcl], hc⟩
    · exact Or.inr ⟨e0, by rw [← hfj, hcl], hc⟩

/-- Witness for C10: the retried call against a provider failing with
`Exception("boom")` raises the fixed generic message with the original error as
cause. -/
theorem claim_C10_witness :
    containsSub "Ratelimit" (PyBaseErr.providerError "boom").str = false
    ∧ (DDGAPIWrapper.runRetried (fun _ _ => streamBoom) "q" 2 true).result
        = Except.error (PyErr.ddgError "An error occurred during search"
            (some (PyBaseErr.providerError "boom"))) := by
  have h : (DDGAPIWrapper.runRetried (fun _ _ => streamBoom) "q" 2 true).result
      = Except.error (PyErr.ddgError "An error occurred during search"
          (some (PyBaseErr.providerError "boom"))) := by rfl
  rcases claim_C10 (fun _ _ => streamBoom) "q" 2 true _ h
    with ⟨e0, he, _⟩ | ⟨e0, he, hc⟩
  · simp at he
  · injection he.symm with h1 h2
    injection h2 with h3
    subst h3
    exact ⟨hc, h⟩

lemma searchAux_missing (r : DDGRecord) (key : String) (m : Nat)
    (hn : normalizeRecord r = Except.error (PyBaseErr.keyError key)) :
    DDGAPIWrapper.searchAux (m + 1) [r] none
      = (Except.error (PyBaseErr.keyError key), 1) := by
  rw [DDGAPIWrapper.searchAux, hn]

/-- Counterexample to claim C4 as stated: a provider record missing `href`
does not make the call fail immediately without retry — the `KeyError` is
caught by the blanket `except Exception` block, reclassified as the retryable
`DuckDuckGoSearchException`, and the call is retried: all 5 attempts run
(`attempts = 5`, not `1`). -/
theorem claim_C4_counterexample :
    (DDGAPIWrapper.runRetried
        (fun _ _ => { items := [recMissingHref], err := none }) "q" 3 true).attempts = 5
    ∧ ¬ (DDGAPIWrapper.runRetried
        (fun _ _ => { items := [recMissingHref], err := none }) "q" 3 true).attempts = 1 :=
  ⟨by rfl, by decide⟩

/-- Claim C4, amended: if a provider record is missing any of the required
fields `href`, `body` or `title`, the comprehension fails with a `KeyError` on
the first missing field (in evaluation order `href`, `body`, `title`); there is
no separate `MalformedResult` kind — at the invocation boundary this failure,
like any other, is reclassified as the retryable `DuckDuckGoSearchException`
with message `"An error occurred during search"`, so the call is retried up to
5 attempts and then fails with that classified error rather than propagating
immediately on first occurrence. -/
theorem claim_C4 (r : DDGRecord)
    (h : r.get "href" = none ∨ r.get "body" = none ∨ r.get "title" = none) :
    ∃ key, (key = "href" ∨ key = "body" ∨ key = "title")
      ∧ normalizeRecord r = Except.error (PyBaseErr.keyError key)
      ∧ classifyError (PyBaseErr.keyError key)
          = PyErr.ddgError "An error occurred during search"
              (some (PyBaseErr.keyError key))
      ∧ isRetryableErr (classifyError (PyBaseErr.keyError key)) = true
      ∧ ∀ (text : Nat → String → ProviderStream) (query : String) (k : Int)
          (b : Bool), (∀ a, text a query = { items := [r], err := none }) →
          0 < k →
          (DDGAPIWrapper.runRetried text query k b).attempts = 5
          ∧ (DDGAPIWrapper.runRetried text query k b).result
              = Except.error (PyErr.ddgError "An error occurred during search"
                  (some (PyBaseErr.keyError key))) := by
  have hkey : ∃ key, (key = "href" ∨ key = "body" ∨ key = "title")
      ∧ normalizeRecord r = Except.error (PyBaseErr.keyError key) := by
    cases hh : r.get "href" with
    | none =>
      refine ⟨"href", Or.inl rfl, ?_⟩
      simp only [normalizeRecord, DDGRecord.item, hh]
      rfl
    | some v =>
      cases hb : r.get "body" with
      | none =>
        refine ⟨"body", Or.inr (Or.inl rfl), ?_⟩
        simp only [normalizeRecord, DDGRecord.item, hh, hb]
        rfl
      | some v2 =>
        cases ht : r.get "title" with
        | none =>
          refine ⟨"title", Or.inr (Or.inr rfl), ?_⟩
          simp only [normalizeRecord, DDGRecord.item, hh, hb, ht]
          rfl
        | some v3 =>
          rcases h with h | h | h <;> simp_all
  obtain ⟨key, hkeys, hn⟩ := hkey
  have hcl : classifyError (PyBaseErr.keyError key)
      = PyErr.ddgError "An error occurred during search"
          (some (PyBaseErr.keyError key)) := by
    rcases hkeys with rfl | rfl | rfl <;> rfl
  refine ⟨key, hkeys, hn, hcl, by rw [hcl]; rfl, ?_⟩
  intro text query k b htext hk
  have hsearch : ∀ a, DDGAPIWrapper.searchFromDdgs (text a) query k
      = (Except.error (PyBaseErr.keyError key), 1) := by
    intro a
    unfold DDGAPIWrapper.searchFromDdgs
    rw [htext a]
    show DDGAPIWrapper.searchAux k.toNat [r] none = _
    obtain ⟨m, hm⟩ : ∃ m, k.toNat = m + 1 := ⟨k.toNat - 1, by omega⟩
    rw [hm]
    exact searchAux_missing r key m hn
  have hrun : ∀ a, (DDGAPIWrapper.run (text a) query k b).result
      = Except.error (classifyError (PyBaseErr.keyError key)) := by
    intro a
    rw [run_of_searchErr b (hsearch a)]
  obtain ⟨hres, hatt⟩ := retryAux_allFail
    (fun a => (DDGAPIWrapper.run (text a) query k b).result) 4 1
    (fun j hj1 hj2 => ⟨classifyError (PyBaseErr.keyError key), hrun j,
      isRetryableErr_classify _⟩)
  constructor
  · exact hatt
  · show (retryAux
        (fun a => (DDGAPIWrapper.run (text a) query k b).result) 1 4).result = _
    rw [hres]
    show (DDGAPIWrapper.run (text 5) query k b).result = _
    rw [hrun 5, hcl]

/-- Witness for the amended C4 at the concrete record missing `href`. -/
theorem claim_C4_witness :
    (DDGAPIWrapper.runRetried
        (fun _ _ => { items := [recMissingHref], err := none }) "q" 3 true).attempts
      = 5 := by
  obtain ⟨key, hkeys, hn, hcl, hre, hrun⟩ := claim_C4 recMissingHref (Or.inl (by rfl))
  exact (hrun (fun _ _ => { items := [recMissingHref], err := none }) "q" 3 true
    (fun a => rfl) (by norm_num)).1

/-- Claim C5: on a cache hit within the ttl for the identical
`(query, max_results, as_string)` triple, `cached_run` returns the stored value
with zero provider invocations, zero limiter tokens, and without entering the
retry policy; on a miss the full chain executes (one limiter token and one
provider invocation per attempt) and a successful result is stored under the
call's key with expiry `now + 300` seconds, so that the same call within 300
seconds hits. -/
theorem claim_C5 (text : Nat → String → ProviderStream) (c : CacheState)
    (now : Nat) (query : String) (k : Int) (b : Bool) :
    (∀ v, lookupCache c (query, k, b) now = some v →
        DDGAPIWrapper.cachedRun text c now query k b
          = { result := Except.ok v, cache := c, providerInvocations := 0,
              limiterTokens := 0, retryEntered := false })
    ∧ (lookupCache c (query, k, b) now = none →
        (DDGAPIWrapper.cachedRun text c now query k b).providerInvocations
            = (DDGAPIWrapper.runRetried text query k b).attempts
        ∧ (DDGAPIWrapper.cachedRun text c now query k b).limiterTokens
            = (DDGAPIWrapper.runRetried text query k b).attempts
        ∧ (DDGAPIWrapper.cachedRun text c now query k b).retryEntered = true
        ∧ (DDGAPIWrapper.cachedRun text c now query k b).result
            = (DDGAPIWrapper.runRetried text query k b).result
        ∧ ∀ v, (DDGAPIWrapper.runRetried text query k b).result = Except.ok v →
            (DDGAPIWrapper.cachedRun text c now query k b).cache.entries
              = ((query, k, b), { value := v, expiry := now + 300 }) :: c.entries
            ∧ ∀ now2, now2 < now + 300 →
                lookupCache (DDGAPIWrapper.cachedRun text c now query k b).cache
                  (query, k, b) now2 = some v) := by
  constructor
  · intro v hv
    simp only [DDGAPIWrapper.cachedRun, hv]
  · intro hmiss
    cases hr : (DDGAPIWrapper.runRetried text query k b).result with
    | ok v0 =>
      refine ⟨?_, ?_, ?_, ?_, ?_⟩
      · simp only [DDGAPIWrapper.cachedRun, hmiss, hr]
      · simp only [DDGAPIWrapper.cachedRun, hmiss, hr]
      · simp only [DDGAPIWrapper.cachedRun, hmiss, hr]
      · simp only [DDGAPIWrapper.cachedRun, hmiss, hr]
      · intro v hv2
        simp only [Except.ok.injEq] at hv2
        subst hv2
        constructor
        · simp only [DDGAPIWrapper.cachedRun, hmiss, hr]
        · intro now2 hnow2
          simp only [DDGAPIWrapper.cachedRun, hmiss, hr]
          simp [lookupCache, hnow2]
    | error e0 =>
      refine ⟨?_, ?_, ?_, ?_, ?_⟩
      · simp only [DDGAPIWrapper.cachedRun, hmiss, hr]
      · simp only [DDGAPIWrapper.cachedRun, hmiss, hr]
      · simp only [DDGAPIWrapper.cachedRun, hmiss, hr]
      · simp only [DDGAPIWrapper.cachedRun, hmiss, hr]
      · intro v hv2
        simp at hv2

/-- Witness for C5: a hit in a concrete warm cache, and a miss in the empty
cache followed by a store. -/
theorem claim_C5_witness :
    DDGAPIWrapper.cachedRun (fun _ _ => streamTwo)
        { entries := [(("rust programming", 2, false),
            { value := Sum.inr resultsTwo, expiry := 400 })] }
        200 "rust programming" 2 false
      = { result := Except.ok (Sum.inr resultsTwo),
          cache := { entries := [(("rust programming", 2, false),
            { value := Sum.inr resultsTwo, expiry := 400 })] },
          providerInvocations := 0, limiterTokens := 0, retryEntered := false }
    ∧ (DDGAPIWrapper.cachedRun (fun _ _ => streamTwo) { entries := [] }
        100 "rust programming" 2 false).cache.entries
      = [(("rust programming", 2, false),
          { value := Sum.inr resultsTwo, expiry := 100 + 300 })] := by
  constructor
  · exact (claim_C5 (fun _ _ => streamTwo)
      { entries := [(("rust programming", 2, false),
          { value := Sum.inr resultsTwo, expiry := 400 })] }
      200 "rust programming" 2 false).1 (Sum.inr resultsTwo) (by rfl)
  · exact ((claim_C5 (fun _ _ => streamTwo) { entries := [] }
      100 "rust programming" 2 false).2 (by rfl) |>.2.2.2.2
      (Sum.inr resultsTwo) (by rfl)).1

/-- Claim C7: the shared rate limiter has burst capacity `max_rate = 1` token
and refill period `time_period = 1` second; every execution of the `run` body
takes exactly one limiter token and makes exactly one provider invocation
(acquisition precedes the invocation in the body), `cached_run` takes limiter
tokens exactly as many times as it invokes the provider (zero on a hit), and in
the spec's token-bucket model every valid trace of admissions through the one
shared limiter instance has consecutive admissions at least one period apart —
at most one invocation admitted per second process-wide. -/
theorem claim_C7 :
    DDGAPIWrapper.rateLimiterMaxRate = 1
    ∧ DDGAPIWrapper.rateLimiterTimePeriod = 1
    ∧ (∀ (text : String → ProviderStream) (query : String) (k : Int) (b : Bool),
        (DDGAPIWrapper.run text query k b).limiterTokens = 1
        ∧ (DDGAPIWrapper.run text query k b).providerInvocations
            = (DDGAPIWrapper.run text query k b).limiterTokens)
    ∧ (∀ (text : Nat → String → ProviderStream) (c : CacheState) (now : Nat)
          (query : String) (k : Int) (b : Bool),
        (DDGAPIWrapper.cachedRun text c now query k b).limiterTokens
          = (DDGAPIWrapper.cachedRun text c now query k b).providerInvocations)
    ∧ (∀ (s : LimiterState) (ts : List ℚ), validTrace s ts →
        List.Chain' (fun t1 t2 => t1 + 1 ≤ t2) ts) := by
  refine ⟨rfl, rfl, ?_, ?_, ?_⟩
  · intro text query k b
    obtain ⟨h1, h2⟩ := run_effects text query k b
    exact ⟨h1, by rw [h1, h2]⟩
  · intro text c now query k b
    cases hl : lookupCache c (query, k, b) now with
    | some v => simp only [DDGAPIWrapper.cachedRun, hl]
    | none =>
      cases hr : (DDGAPIWrapper.runRetried text query k b).result with
      | ok v => simp only [DDGAPIWrapper.cachedRun, hl, hr]
      | error e => simp only [DDGAPIWrapper.cachedRun, hl, hr]
  · intro s ts h
    exact validTrace_spacing ts s h

/-- Witness for C7: admissions at times 0 and 1 form a valid trace of the
limiter started empty, and they are (at least) one second apart. -/
theorem claim_C7_witness :
    List.Chain' (fun t1 t2 => t1 + 1 ≤ t2) [(0 : ℚ), 1] := by
  apply (claim_C7).2.2.2.2 { level := 0, lastCheck := 0 } [0, 1]
  norm_num [validTrace, limiterHasCapacity, limiterLeak, limiterAcquire,
    DDGAPIWrapper.rateLimiterMaxRate, DDGAPIWrapper.rateLimiterTimePeriod]
